import Mathlib

/-!
# Verification of `lbrynet/wallet/blockchain.py`

A shallow embedding of the header-chain store of the lbry wallet:
the `BlockchainHeaders` class (file-backed header store with validated
batch `connect`) and the `_ArithUint256` compact-target arithmetic.

Modelling conventions:

* The code is Python 2.  Byte strings are modelled as `List Nat`
  (one `Nat` per byte); hex strings produced by `lbryum.util.hash_encode`
  (`x[::-1].encode('hex')`) are modelled by the byte list they denote,
  i.e. the reversed byte list, since the code only ever compares such
  strings for equality and parses them back with `int(_, 16)`.
* Python arbitrary-precision non-negative ints are `Nat`; values that can
  go negative (timestamps differences, length differences) are `Int`.
  Python `//` (floor division) on `Int` is `Int.fdiv` and `%` with a
  positive modulus is `Int.emod` (Lean's `%` on `Int`).
* The two cryptographic hash functions `Hash` (double SHA-256) and
  `PoWHash` come from the external `lbryum.hashing` library (not part of
  this repository); they are taken as parameters `(H PW : List Nat → List Nat)`
  mapping a serialized header to its 32-byte hash.
* A Python `assert` failure or `TypeError` is an abnormal exit; functions
  that can raise return `Except PyErr _`.  `BlockchainHeaders._sync_connect`
  returns the file/cache/event state it left behind in both the normal and
  the abnormal case, since a state component can be mutated before a raise.
* The store state is the backing file (`file`, the byte list on disk), the
  cached record count `_size` (`size`, `none` when not yet computed) and
  the list of values published so far to the `StreamController`
  (`events`, in publish order).
-/

set_option maxRecDepth 40000

deriving instance DecidableEq for Except

namespace Blockchain

/-- Modelled from the spec: `lbrynet/wallet/constants.py` is not under `src/`
(only `blockchain.py` imports it).  The spec fixes the record size:
"a flat file, record size 112 bytes". -/
def HEADER_SIZE : Nat := 112

/-- Modelled from the spec: chain parameters are "configuration keyed by chain
name": `maxTarget: BigUint`, `targetTimespan: integer seconds`,
`genesisBits: u32` (`constants.py` itself is not under `src/`). -/
structure ChainParams where
  max_target : Nat
  target_timespan : Int
  genesis_bits : Nat
  deriving DecidableEq

/-- Modelled from the spec: the concrete parameter values for the default
`lbrycrd_main` chain live in `constants.py` (absent from `src/`); these are
the published lbrycrd mainnet consensus parameters (proof-of-work limit,
150-second retarget timespan, genesis bits). -/
def lbrycrd_main_params : ChainParams :=
  { max_target := 0x0000ffffffffffffffffffffffffffffffffffffffffffffffffffffffffffff
    target_timespan := 150
    genesis_bits := 0x1f00ffff }

/-- Little-endian decoding of a byte list (`lbryum.util.hex_to_int` applied to
a raw byte string: reverse, hex-encode, parse base 16). -/
def leDecode (b : List Nat) : Nat := b.foldr (fun c acc => acc * 256 + c) 0

/-- Little-endian encoding of `n` into `len` bytes (`lbryum.util.int_to_hex`). -/
def leBytes (n len : Nat) : List Nat := (List.range len).map fun i => n / 256 ^ i % 256

/-- Big-endian value of a byte list (`int('0x' + hexString, 16)` where
`hexString` spells the bytes in the list order). -/
def beDecode (b : List Nat) : Nat := b.foldl (fun acc c => acc * 256 + c) 0

/-- Abnormal exits of the Python code: failed `assert`s and `TypeError`s. -/
inductive PyErr where
  /-- `_iterate_headers`: `assert len(headers) % HEADER_SIZE == 0`. -/
  | formatAssert
  /-- `_verify_header`: `assert previous_hash == header['prev_block_hash']`. -/
  | linkageAssert
  /-- `_calculate_lbry_next_work_required`: the two bits-range `assert`s. -/
  | bitsRangeAssert
  /-- `_verify_header`: `assert bits == header['bits']`. -/
  | difficultyAssert
  /-- `_verify_header`: `assert int('0x' + _pow_hash, 16) <= target`. -/
  | powAssert
  /-- `_ArithUint256.GetCompact`: its two `assert`s. -/
  | compactAssert
  /-- `TypeError` from subscripting/using `None` (e.g. `_deserialize` of the
  `None` returned by `sync_read_header`, or `first['timestamp']` with
  `first = None`). -/
  | typeErrorNone
  /-- `TypeError` in `_sync_connect` computing `self._size - _old_size`
  when the cached `_size` was still `None` before the call. -/
  | typeErrorSize
  deriving DecidableEq

namespace ArithUint256

/-- `_ArithUint256.fromCompact`: decode a compact representation. -/
def fromCompact (nCompact : Nat) : Nat :=
  let nSize := nCompact >>> 24
  let nWord := nCompact &&& 0x007fffff
  if nSize ≤ 3 then nWord >>> (8 * (3 - nSize)) else nWord <<< (8 * (nSize - 3))

/-- Length of Python `bin(n)[2:]`, computed with structural fuel so the kernel
can evaluate it (`fuel` only has to exceed the bit length). -/
def binLenAux : Nat → Nat → Nat
  | 0, _ => 0
  | fuel + 1, n => if n = 0 then 0 else binLenAux fuel (n / 2) + 1

/-- `bin(value)[2:]` has length 1 for `value = 0` (the string `"0"`) and the
bit length of `value` otherwise. -/
def binLen (value : Nat) : Nat := if value = 0 then 1 else binLenAux value value

/-- `_ArithUint256.bits`: `bn = bin(self._value)[2:]` and the loop
`for i, d in enumerate(bn): if d: return (len(bn) - i) + 1`.  Each `d` is a
one-character string, which is always truthy in Python, so the loop returns
`len(bn) + 1` on its first iteration (the `return 0` fallback is dead for
every value, including 0 whose `bin` string is `"0"`). -/
def bitsOf (value : Nat) : Nat := binLen value + 1

/-- `_ArithUint256.GetLow64`. -/
def GetLow64 (value : Nat) : Nat := value &&& 0xffffffffffffffff

/-- `_ArithUint256.GetCompact`: encode a value into compact representation.
The two trailing Python `assert`s (`nCompact & ~0x007fffff == 0`, i.e.
`nCompact < 0x800000`, and `nSize < 256`) become the final guard; `none`
models an `AssertionError`. -/
def GetCompact (value : Nat) : Option Nat :=
  let nSize := (bitsOf value + 7) / 8
  let nCompact :=
    if nSize ≤ 3 then GetLow64 value <<< (8 * (3 - nSize))
    else GetLow64 (value >>> (8 * (nSize - 3)))
  let nCompact2 := if nCompact &&& 0x00800000 ≠ 0 then nCompact >>> 8 else nCompact
  let nSize2 := if nCompact &&& 0x00800000 ≠ 0 then nSize + 1 else nSize
  if nCompact2 < 0x00800000 ∧ nSize2 < 256 then some (nCompact2 ||| (nSize2 <<< 24))
  else none

/-- `_ArithUint256.__mul__`: "Take the mod because we are limited to an
unsigned 256 bit number". -/
def __mul__ (value x : Int) : Int := (value * x) % (2 : Int) ^ 256

/-- `_ArithUint256.__ifloordiv__`: Python floor division, no modulus. -/
def __ifloordiv__ (value x : Int) : Int := Int.fdiv value x

end ArithUint256

/-- A deserialized header (`_deserialize`'s dict).  Hash-valued fields hold
the display-order byte list denoted by the stored hex string. -/
structure Header where
  version : Nat
  prev_block_hash : List Nat
  merkle_root : List Nat
  claim_trie_root : List Nat
  timestamp : Nat
  bits : Nat
  nonce : Nat
  block_height : Int
  deriving DecidableEq

/-- `BlockchainHeaders._deserialize` (byte level; `hash_encode` = reverse). -/
def _deserialize (height : Int) (b : List Nat) : Header :=
  { version := leDecode (b.take 4)
    prev_block_hash := ((b.drop 4).take 32).reverse
    merkle_root := ((b.drop 36).take 32).reverse
    claim_trie_root := ((b.drop 68).take 32).reverse
    timestamp := leDecode ((b.drop 100).take 4)
    bits := leDecode ((b.drop 104).take 4)
    nonce := leDecode ((b.drop 108).take 4)
    block_height := height }

/-- `BlockchainHeaders._serialize` (byte level; `rev_hex` = reverse). -/
def _serialize (h : Header) : List Nat :=
  leBytes h.version 4 ++ h.prev_block_hash.reverse ++ h.merkle_root.reverse ++
    h.claim_trie_root.reverse ++ leBytes h.timestamp 4 ++ leBytes h.bits 4 ++
    leBytes h.nonce 4

/-- `BlockchainHeaders._hash_header`: `'0' * 64` for `None`, otherwise
`hash_encode(Hash(serialized))` with `Hash` the external double SHA-256. -/
def _hash_header (H : List Nat → List Nat) (header : Option Header) : List Nat :=
  match header with
  | none => List.replicate 32 0
  | some h => (H (_serialize h)).reverse

/-- `BlockchainHeaders._pow_hash_header` with `PW` the external `PoWHash`. -/
def _pow_hash_header (PW : List Nat → List Nat) (header : Option Header) : List Nat :=
  match header with
  | none => List.replicate 32 0
  | some h => (PW (_serialize h)).reverse

/-- `BlockchainHeaders._calculate_lbry_next_work_required`.
`first` is an `Option` because `_sync_connect` leaves `previous_header = None`
at height 0, where it is never inspected (using it at a non-genesis height
would be a Python `TypeError`).  Returns `(new bits, target value)`.

The clamp `if bnNew > bnPowLimit` compares the two values; note that in the
source `bnNew.__gt__` receives the `_ArithUint256` *object* `bnPowLimit`, so
under CPython 2 mixed-type ordering (`int` < any non-numeric object) the
branch can never fire — the value comparison modelled here is the evident
intent, and no theorem below depends on an input where the two readings
differ. -/
def _calculate_lbry_next_work_required (params : ChainParams) (chain : String)
    (height : Int) (first : Option Header) (last : Header) :
    Except PyErr (Nat × Int) :=
  if height = 0 then .ok (params.genesis_bits, (params.max_target : Int))
  else
    let rangeCheck : Except PyErr Unit :=
      if chain ≠ "lbrycrd_regtest" then
        let bits := last.bits
        let bitsN := (bits >>> 24) &&& 0xff
        if ¬ (0x03 ≤ bitsN ∧ bitsN ≤ 0x1f) then .error .bitsRangeAssert
        else
          let bitsBase := bits &&& 0xffffff
          if ¬ (0x8000 ≤ bitsBase ∧ bitsBase ≤ 0x7fffff) then .error .bitsRangeAssert
          else .ok ()
      else .ok ()
    match rangeCheck, first with
    | .error e, _ => .error e
    | .ok _, none => .error .typeErrorNone
    | .ok _, some first =>
      let retargetTimespan : Int := params.target_timespan
      let nActualTimespan : Int := (last.timestamp : Int) - (first.timestamp : Int)
      let nModulatedTimespan : Int :=
        retargetTimespan + Int.fdiv (nActualTimespan - retargetTimespan) 8
      let nMinTimespan : Int := retargetTimespan - Int.fdiv retargetTimespan 8
      let nMaxTimespan : Int := retargetTimespan + Int.fdiv retargetTimespan 2
      let nModulatedTimespan :=
        if nModulatedTimespan < nMinTimespan then nMinTimespan
        else if nModulatedTimespan > nMaxTimespan then nMaxTimespan
        else nModulatedTimespan
      let bnPowLimit : Int := (params.max_target : Int)
      let bnNew : Int := (ArithUint256.fromCompact last.bits : Int)
      let bnNew := ArithUint256.__mul__ bnNew nModulatedTimespan
      let bnNew := ArithUint256.__ifloordiv__ bnNew nModulatedTimespan
      let bnNew := if bnNew > bnPowLimit then bnPowLimit else bnNew
      match ArithUint256.GetCompact bnNew.toNat with
      | none => .error .compactAssert
      | some c => .ok (c, bnNew)

/-- `BlockchainHeaders._verify_header`. -/
def _verify_header (H PW : List Nat → List Nat) (params : ChainParams)
    (chain : String) (height : Int) (header : Header)
    (previous_header : Option Header) : Except PyErr Unit :=
  let previous_hash := _hash_header H previous_header
  if previous_hash ≠ header.prev_block_hash then .error .linkageAssert
  else
    match _calculate_lbry_next_work_required params chain height previous_header header with
    | .error e => .error e
    | .ok (bits, target) =>
      if bits ≠ header.bits then .error .difficultyAssert
      else if ¬ ((beDecode (_pow_hash_header PW (some header)) : Int) ≤ target) then
        .error .powAssert
      else .ok ()

/-- The mutable state of a `BlockchainHeaders` instance: backing file bytes,
cached `_size`, and all values published to the on-change stream so far. -/
structure HeadersState where
  file : List Nat
  size : Option Nat
  events : List Int
  deriving DecidableEq

/-- `BlockchainHeaders.sync_read_length`: `os.path.getsize(path) / HEADER_SIZE`
(Python 2 integer floor division). -/
def sync_read_length (st : HeadersState) : Nat := st.file.length / HEADER_SIZE

/-- `BlockchainHeaders.__len__`: returns the cached `_size`, computing and
caching it first if it is still `None`.  Returns the (possibly updated)
state together with the length. -/
def __len__ (st : HeadersState) : HeadersState × Nat :=
  match st.size with
  | some s => (st, s)
  | none => ({ st with size := some (sync_read_length st) }, sync_read_length st)

/-- The value `len(self)` would return on `st` (the observable length). -/
def lengthVal (st : HeadersState) : Nat := (__len__ st).2

/-- `BlockchainHeaders.sync_read_header`: `None` unless
`0 <= height < len(self)` (the chained comparison only evaluates
`len(self)` — and hence only touches the cache — when `0 <= height`). -/
def sync_read_header (st : HeadersState) (height : Int) :
    HeadersState × Option (List Nat) :=
  if 0 ≤ height then
    let p := __len__ st
    if height < (p.2 : Int) then
      (p.1, some ((p.1.file.drop (height.toNat * HEADER_SIZE)).take HEADER_SIZE))
    else (p.1, none)
  else (st, none)

/-- `BlockchainHeaders.__getitem__`: reads raw bytes and deserializes them.
When `sync_read_header` returns `None` the call to `_deserialize` subscripts
`None` and raises a `TypeError` — there is no absent result. -/
def __getitem__ (st : HeadersState) (height : Int) :
    HeadersState × Except PyErr Header :=
  let r := sync_read_header st height
  match r.2 with
  | none => (r.1, .error .typeErrorNone)
  | some b => (r.1, .ok (_deserialize height b))

/-- `BlockchainHeaders._iterate_headers` after its divisibility assert:
the deserialized records of the batch, record `idx` at height
`height + idx`. -/
def _iterate_headers (height : Nat) (headers : List Nat) : List Header :=
  (List.range (headers.length / HEADER_SIZE)).map fun idx =>
    _deserialize ((height + idx : Nat) : Int)
      ((headers.drop (idx * HEADER_SIZE)).take HEADER_SIZE)

/-- The validation loop of `_sync_connect`: walk the batch, fetching the
predecessor of the first non-genesis record from the store
(`self[height - 1]`), verify each record, and thread the running
`previous_header`.  Only the `_size` cache can change here (via `len(self)`
inside `sync_read_header`); any raise aborts before the write phase. -/
def verifyLoop (H PW : List Nat → List Nat) (params : ChainParams)
    (chain : String) : HeadersState → Option Header → List Header →
    HeadersState × Except PyErr Unit
  | st, _, [] => (st, .ok ())
  | st, previous_header, header :: rest =>
    let height := header.block_height
    let fetch : HeadersState × Except PyErr (Option Header) :=
      if previous_header = none ∧ 0 < height then
        match __getitem__ st (height - 1) with
        | (st2, .ok ph) => (st2, .ok (some ph))
        | (st2, .error e) => (st2, .error e)
      else (st, .ok previous_header)
    match fetch with
    | (st2, .error e) => (st2, .error e)
    | (st2, .ok prev2) =>
      match _verify_header H PW params chain height header prev2 with
      | .error e => (st2, .error e)
      | .ok _ => verifyLoop H PW params chain st2 (some header) rest

/-- `BlockchainHeaders._sync_connect`.  Validation runs first; only then is
the file opened, `headers` written at offset `start * HEADER_SIZE` and the
file truncated at the position after the write (`f.truncate()` with no
argument resizes to the current position, zero-filling when the seek was past
the end).  Then the cached size is recomputed and `newSize - oldSize` is
published.  The Python function body has no `return` statement, so a normal
exit produces `None`: the `.ok` payload is always `none`. -/
def _sync_connect (H PW : List Nat → List Nat) (params : ChainParams)
    (chain : String) (st : HeadersState) (start : Nat) (headers : List Nat) :
    HeadersState × Except PyErr (Option Int) :=
  if headers.length % HEADER_SIZE ≠ 0 then (st, .error .formatAssert)
  else
    match verifyLoop H PW params chain st none (_iterate_headers start headers) with
    | (st2, .error e) => (st2, .error e)
    | (st2, .ok _) =>
      let p := start * HEADER_SIZE
      let file2 := st2.file.take p ++ List.replicate (p - st2.file.length) 0 ++ headers
      match st2.size with
      | none =>
        ({ st2 with file := file2, size := some (file2.length / HEADER_SIZE) },
          .error .typeErrorSize)
      | some old =>
        let newSize := file2.length / HEADER_SIZE
        let change : Int := (newSize : Int) - (old : Int)
        ({ file := file2, size := some newSize, events := st2.events ++ [change] },
          .ok none)

/-- `BlockchainHeaders.connect`: acquires the single `DeferredLock`, runs
`_sync_connect` in a worker thread and releases the lock on every exit path.
With calls serialized by that lock its observable behaviour is exactly
`_sync_connect`; the deferred fires with `_sync_connect`'s return value
(`None`) or its exception. -/
def connect (H PW : List Nat → List Nat) (params : ChainParams) (chain : String)
    (st : HeadersState) (start : Nat) (headers : List Nat) :
    HeadersState × Except PyErr (Option Int) :=
  _sync_connect H PW params chain st start headers

/-! ### Concrete instances used by witnesses and counterexamples -/

/-- A stand-in instantiation for the external hash parameters: the constant
all-zero 32-byte digest.  The theorems quantify over the hash functions, so
any concrete choice is admissible for exercising them. -/
def H0 : List Nat → List Nat := fun _ => List.replicate 32 0

/-- A store whose file is empty, with the size cache populated. -/
def emptyState : HeadersState := ⟨[], some 0, []⟩

/-- A 112-byte record that deserializes to a genesis-shaped header: all-zero
`prev_block_hash`, `bits` = the little-endian bytes of `0x1f00ffff`
(the mainnet genesis bits) at offsets `[104, 108)`. -/
def genesisRecord : List Nat :=
  List.replicate 104 0 ++ [0xff, 0xff, 0x00, 0x1f] ++ List.replicate 4 0

/-- A 112-byte record whose `prev_block_hash` bytes are not all zero, so its
linkage check against an absent predecessor fails. -/
def badLinkRecord : List Nat := List.replicate 4 0 ++ [7] ++ List.replicate 107 0

/-- Window-start header for the retarget evaluation: timestamp 0. -/
def firstRetarget : Header :=
  { version := 0, prev_block_hash := List.replicate 32 0
    merkle_root := List.replicate 32 0, claim_trie_root := List.replicate 32 0
    timestamp := 0, bits := 0, nonce := 0, block_height := 0 }

/-- Window-end header for the retarget evaluation: timestamp 40 (an actual
timespan of 40 s against the 150 s target), compact bits `0x1a123456`. -/
def lastRetarget : Header :=
  { version := 0, prev_block_hash := List.replicate 32 0
    merkle_root := List.replicate 32 0, claim_trie_root := List.replicate 32 0
    timestamp := 40, bits := 0x1a123456, nonce := 0, block_height := 1 }

/-- The same window-end header with timestamp 300 instead of 40: a very
different actual timespan, used to show the retarget output does not move. -/
def lastRetargetSlow : Header :=
  { version := 0, prev_block_hash := List.replicate 32 0
    merkle_root := List.replicate 32 0, claim_trie_root := List.replicate 32 0
    timestamp := 300, bits := 0x1a123456, nonce := 0, block_height := 1 }

/-! ### Helper lemmas -/

theorem size_eq_size_div_two_succ {n : Nat} (h : 1 ≤ n) :
    Nat.size n = Nat.size (n / 2) + 1 := by
  refine Nat.le_antisymm ?_ ?_
  · rw [Nat.size_le]
    have h2 := Nat.lt_size_self (n / 2)
    have h3 : n ≤ 2 * (n / 2) + 1 := by omega
    calc n ≤ 2 * (n / 2) + 1 := h3
    _ < 2 ^ (Nat.size (n / 2) + 1) := by rw [Nat.pow_succ]; omega
  · rw [Nat.succ_le, Nat.lt_size]
    rcases Nat.eq_zero_or_pos (n / 2) with h0 | h0
    · simp only [h0, Nat.size_zero, Nat.pow_zero]
      omega
    · have hs : 1 ≤ Nat.size (n / 2) := by
        rw [Nat.succ_le, Nat.lt_size]
        simpa using h0
      have h4 := (Nat.lt_size (m := Nat.size (n / 2) - 1) (n := n / 2)).mp (by omega)
      calc 2 ^ Nat.size (n / 2) = 2 * 2 ^ (Nat.size (n / 2) - 1) := by
            rw [← Nat.pow_succ']
            congr 1
            omega
      _ ≤ 2 * (n / 2) := by omega
      _ ≤ n := by omega

theorem binLenAux_eq_size : ∀ fuel n : Nat, n ≤ fuel →
    ArithUint256.binLenAux fuel n = Nat.size n := by
  intro fuel
  induction fuel with
  | zero =>
    intro n hn
    have : n = 0 := by omega
    subst this
    simp [ArithUint256.binLenAux]
  | succ fuel ih =>
    intro n hn
    unfold ArithUint256.binLenAux
    by_cases h0 : n = 0
    · simp [h0]
    · rw [if_neg h0, ih (n / 2) (by omega), ← size_eq_size_div_two_succ (by omega)]

theorem binLen_eq_size {n : Nat} (h : n ≠ 0) :
    ArithUint256.binLen n = Nat.size n := by
  unfold ArithUint256.binLen
  rw [if_neg h]
  exact binLenAux_eq_size n n le_rfl

theorem bitsOf_eq_size_succ {n : Nat} (h : n ≠ 0) :
    ArithUint256.bitsOf n = Nat.size n + 1 := by
  unfold ArithUint256.bitsOf
  rw [binLen_eq_size h]

/-- `__len__` only populates the size cache: file, events and the observable
length are untouched. -/
theorem len_state_preserved (st : HeadersState) :
    (__len__ st).1.file = st.file ∧ (__len__ st).1.events = st.events ∧
      lengthVal (__len__ st).1 = lengthVal st := by
  cases h : st.size <;> simp [__len__, lengthVal, h]

theorem len_state_of_some {st : HeadersState} {s : Nat} (h : st.size = some s) :
    (__len__ st).1 = st := by
  simp [__len__, h]

theorem sync_read_header_state_preserved (st : HeadersState) (height : Int) :
    (sync_read_header st height).1.file = st.file ∧
      (sync_read_header st height).1.events = st.events ∧
      lengthVal (sync_read_header st height).1 = lengthVal st := by
  simp only [sync_read_header]
  split
  · split
    · exact len_state_preserved st
    · exact len_state_preserved st
  · exact ⟨rfl, rfl, rfl⟩

theorem sync_read_header_state_of_some {st : HeadersState} {s : Nat}
    (h : st.size = some s) (height : Int) :
    (sync_read_header st height).1 = st := by
  simp only [sync_read_header]
  split
  · rw [len_state_of_some h]
    split <;> rfl
  · rfl

theorem getitem_fst (st : HeadersState) (height : Int) :
    (__getitem__ st height).1 = (sync_read_header st height).1 := by
  cases h : (sync_read_header st height).2 <;> simp [__getitem__, h]

theorem getitem_state_preserved (st : HeadersState) (height : Int) :
    (__getitem__ st height).1.file = st.file ∧
      (__getitem__ st height).1.events = st.events ∧
      lengthVal (__getitem__ st height).1 = lengthVal st := by
  rw [getitem_fst]
  exact sync_read_header_state_preserved st height

theorem getitem_state_of_some {st : HeadersState} {s : Nat}
    (h : st.size = some s) (height : Int) :
    (__getitem__ st height).1 = st := by
  rw [getitem_fst]
  exact sync_read_header_state_of_some h height

theorem verifyLoop_state_preserved (H PW : List Nat → List Nat)
    (params : ChainParams) (chain : String) :
    ∀ (hs : List Header) (st : HeadersState) (prev : Option Header),
      (verifyLoop H PW params chain st prev hs).1.file = st.file ∧
        (verifyLoop H PW params chain st prev hs).1.events = st.events ∧
        lengthVal (verifyLoop H PW params chain st prev hs).1 = lengthVal st := by
  intro hs
  induction hs with
  | nil => intro st prev; exact ⟨rfl, rfl, rfl⟩
  | cons header rest ih =>
    intro st prev
    simp only [verifyLoop]
    split
    · next st2 e heq =>
      -- the fetch step failed; its state came from `__getitem__` or was `st`
      split at heq
      · split at heq <;> rename_i hg
        · exact absurd heq (by simp)
        · obtain ⟨h1, h2⟩ := Prod.mk.injEq .. ▸ heq
          have hp := getitem_state_preserved st (header.block_height - 1)
          rw [hg] at hp
          rw [← h1]
          exact ⟨hp.1, hp.2.1, hp.2.2⟩
      · obtain ⟨h1, h2⟩ := Prod.mk.injEq .. ▸ heq
        rw [← h1]
        exact ⟨rfl, rfl, rfl⟩
    · next st2 prev2 heq =>
      have hst2 : st2.file = st.file ∧ st2.events = st.events ∧
          lengthVal st2 = lengthVal st := by
        split at heq
        · split at heq <;> rename_i hg
          · obtain ⟨h1, h2⟩ := Prod.mk.injEq .. ▸ heq
            have hp := getitem_state_preserved st (header.block_height - 1)
            rw [hg] at hp
            rw [← h1]
            exact ⟨hp.1, hp.2.1, hp.2.2⟩
          · exact absurd heq (by simp)
        · obtain ⟨h1, h2⟩ := Prod.mk.injEq .. ▸ heq
          rw [← h1]
          exact ⟨rfl, rfl, rfl⟩
      split
      · exact hst2
      · have hrec := ih st2 (some header)
        exact ⟨hrec.1.trans hst2.1, hrec.2.1.trans hst2.2.1, hrec.2.2.trans hst2.2.2⟩

theorem verifyLoop_state_of_some (H PW : List Nat → List Nat)
    (params : ChainParams) (chain : String) {s : Nat} :
    ∀ (hs : List Header) (st : HeadersState) (prev : Option Header),
      st.size = some s → (verifyLoop H PW params chain st prev hs).1 = st := by
  intro hs
  induction hs with
  | nil => intro st prev _; rfl
  | cons header rest ih =>
    intro st prev hsz
    simp only [verifyLoop]
    split
    · next st2 e heq =>
      split at heq
      · split at heq <;> rename_i hg
        · exact absurd heq (by simp)
        · obtain ⟨h1, h2⟩ := Prod.mk.injEq .. ▸ heq
          have hp := getitem_state_of_some hsz (header.block_height - 1)
          rw [hg] at hp
          rw [← h1]
          exact hp
      · obtain ⟨h1, h2⟩ := Prod.mk.injEq .. ▸ heq
        rw [← h1]
    · next st2 prev2 heq =>
      have hst2 : st2 = st := by
        split at heq
        · split at heq <;> rename_i hg
          · obtain ⟨h1, h2⟩ := Prod.mk.injEq .. ▸ heq
            have hp := getitem_state_of_some hsz (header.block_height - 1)
            rw [hg] at hp
            rw [← h1]
            exact hp
          · exact absurd heq (by simp)
        · obtain ⟨h1, h2⟩ := Prod.mk.injEq .. ▸ heq
          rw [← h1]
      split
      · exact hst2
      · rw [ih st2 (some header) (hst2 ▸ hsz), hst2]


/-! ### C1 -/

/-- C1 (code defect evaluation): in the non-genesis retarget, the code
multiplies the decoded target by the clamped modulated timespan and then
floor-divides by that same modulated timespan (`bnNew *= nModulatedTimespan;
bnNew //= nModulatedTimespan`), so the two operations cancel: on `lbrycrd_main`
parameters, with previous-window timestamps 0/40 (modulated timespan 136) and
with timestamps 0/300 (modulated timespan 168), the computation returns exactly
the target decoded from `bits = 0x1a123456`, namely `0x123456 * 2 ^ 184`, both
times — the output does not vary with the timespan, whereas scaling by
`modulatedTimespan / targetTimespan` as specified would give
`0x123456 * 2 ^ 184 * 168 / 150 ≠ 0x123456 * 2 ^ 184`. -/
theorem C1_retarget_cancels_evaluation :
    _calculate_lbry_next_work_required lbrycrd_main_params "lbrycrd_main" 1
        (some firstRetarget) lastRetarget =
      Except.ok (0x1a123456, ((0x123456 * 2 ^ 184 : Nat) : Int)) ∧
    _calculate_lbry_next_work_required lbrycrd_main_params "lbrycrd_main" 1
        (some firstRetarget) lastRetargetSlow =
      Except.ok (0x1a123456, ((0x123456 * 2 ^ 184 : Nat) : Int)) ∧
    ArithUint256.fromCompact lastRetarget.bits = 0x123456 * 2 ^ 184 ∧
    (0x123456 * 2 ^ 184) * 168 / 150 ≠ (0x123456 * 2 ^ 184 : Nat) :=
  ⟨by decide, by decide, by decide, by decide⟩

/-! ### C3 -/

/-- C3 (counterexample): `x = 0x01000001` is at most the chain maximum target
and its compact encoding `0x04010000` does not set the mantissa sign bit, yet
decoding gives back `0x01000000 ≠ x`: the encoding truncates the fourth
significant byte. -/
theorem C3_roundtrip_counterexample :
    (0x01000001 : Nat) ≤ lbrycrd_main_params.max_target ∧
      ArithUint256.GetCompact 0x01000001 = some 0x04010000 ∧
      (0x04010000 : Nat) &&& 0x00800000 = 0 ∧
      (ArithUint256.GetCompact 0x01000001).map ArithUint256.fromCompact =
        some 0x01000000 ∧
      (0x01000000 : Nat) ≠ 0x01000001 :=
  ⟨by decide, by decide, by decide, by decide, by decide⟩

/-- C3 (amended): the round trip `fromCompact (GetCompact x) = x` holds for
every `x` below `2 ^ 256` (in particular every `x` at most the chain maximum
target) that is exactly representable in compact form, i.e. `x = m * 256 ^ k`
with mantissa `m < 2 ^ 23`; for such `x` the encoding asserts succeed and the
sign bit is never set. -/
theorem C3_roundtrip_exact (m k : Nat) (hm : m < 0x800000)
    (hbound : m * 256 ^ k < 2 ^ 256) :
    (ArithUint256.GetCompact (m * 256 ^ k)).map ArithUint256.fromCompact =
      some (m * 256 ^ k) := by
  have h256 : (256 : Nat) ^ k = 2 ^ (8 * k) := by
    rw [show (256 : Nat) = 2 ^ 8 by norm_num, ← pow_mul]
  rw [h256] at hbound ⊢
  by_cases hm0 : m = 0
  · subst hm0
    simp only [Nat.zero_mul]
    decide
  · have hl1 : 1 ≤ Nat.size m := by
      have h0 := Nat.size_eq_zero (n := m)
      omega
    have hm23 : m < 2 ^ 23 := by omega
    have hl23 : Nat.size m ≤ 23 := Nat.size_le.mpr hm23
    have hv0 : m * 2 ^ (8 * k) ≠ 0 := by positivity
    have hsizev : Nat.size (m * 2 ^ (8 * k)) = Nat.size m + 8 * k := by
      rw [← Nat.shiftLeft_eq, Nat.size_shiftLeft hm0]
    have hk256 : Nat.size m + 8 * k ≤ 256 := by
      have hs := Nat.size_le.mpr hbound
      omega
    have hbits : ArithUint256.bitsOf (m * 2 ^ (8 * k)) = Nat.size m + 8 * k + 1 := by
      rw [bitsOf_eq_size_succ hv0, hsizev]
    have hnS : (ArithUint256.bitsOf (m * 2 ^ (8 * k)) + 7) / 8
        = Nat.size m / 8 + k + 1 := by
      rw [hbits]
      omega
    have hvlt : m * 2 ^ (8 * k) < 2 ^ (Nat.size m + 8 * k) := by
      rw [← hsizev]
      exact Nat.lt_size_self _
    simp only [ArithUint256.GetCompact, ArithUint256.GetLow64, hnS]
    by_cases hcase : Nat.size m / 8 + k + 1 ≤ 3
    · rw [if_pos hcase]
      have hv23 : m * 2 ^ (8 * k) < 2 ^ 23 :=
        lt_of_lt_of_le hvlt (Nat.pow_le_pow_right (by norm_num) (by omega))
      have hlow : m * 2 ^ (8 * k) &&& 0xffffffffffffffff = m * 2 ^ (8 * k) := by
        rw [show (0xffffffffffffffff : Nat) = 2 ^ 64 - 1 by norm_num,
          Nat.and_pow_two_sub_one_eq_mod,
          Nat.mod_eq_of_lt (lt_of_lt_of_le hv23 (by norm_num))]
      rw [hlow, Nat.shiftLeft_eq]
      have hnclt : m * 2 ^ (8 * k) * 2 ^ (8 * (3 - (Nat.size m / 8 + k + 1))) < 2 ^ 23 := by
        calc m * 2 ^ (8 * k) * 2 ^ (8 * (3 - (Nat.size m / 8 + k + 1)))
            < 2 ^ (Nat.size m + 8 * k) * 2 ^ (8 * (3 - (Nat.size m / 8 + k + 1))) :=
              (Nat.mul_lt_mul_right (by positivity)).mpr hvlt
        _ = 2 ^ (Nat.size m + 8 * k + 8 * (3 - (Nat.size m / 8 + k + 1))) := by
              rw [← pow_add]
        _ ≤ 2 ^ 23 := Nat.pow_le_pow_right (by norm_num) (by omega)
      have hnclt24 : m * 2 ^ (8 * k) * 2 ^ (8 * (3 - (Nat.size m / 8 + k + 1))) < 2 ^ 24 :=
        lt_of_lt_of_le hnclt (by norm_num)
      have hsign : m * 2 ^ (8 * k) * 2 ^ (8 * (3 - (Nat.size m / 8 + k + 1))) &&& 0x00800000 = 0 := by
        rw [show (0x00800000 : Nat) = 2 ^ 23 by norm_num, Nat.and_two_pow,
          Nat.testBit_lt_two_pow hnclt]
        simp
      rw [if_neg (not_not_intro hsign), if_neg (not_not_intro hsign)]
      have hguard1 : m * 2 ^ (8 * k) * 2 ^ (8 * (3 - (Nat.size m / 8 + k + 1))) < 0x00800000 := by
        rw [show (0x00800000 : Nat) = 2 ^ 23 by norm_num]
        exact hnclt
      have hguard2 : Nat.size m / 8 + k + 1 < 256 := by omega
      rw [if_pos ⟨hguard1, hguard2⟩]
      simp only [Option.map_some']
      have hor : m * 2 ^ (8 * k) * 2 ^ (8 * (3 - (Nat.size m / 8 + k + 1))) |||
            ((Nat.size m / 8 + k + 1) <<< 24)
          = 2 ^ 24 * (Nat.size m / 8 + k + 1) +
              m * 2 ^ (8 * k) * 2 ^ (8 * (3 - (Nat.size m / 8 + k + 1))) := by
        rw [Nat.shiftLeft_eq, Nat.lor_comm, mul_comm (Nat.size m / 8 + k + 1) (2 ^ 24),
          ← Nat.mul_add_lt_is_or hnclt24]
      rw [hor]
      simp only [ArithUint256.fromCompact]
      have hshift24 : (2 ^ 24 * (Nat.size m / 8 + k + 1) +
            m * 2 ^ (8 * k) * 2 ^ (8 * (3 - (Nat.size m / 8 + k + 1)))) >>> 24
          = Nat.size m / 8 + k + 1 := by
        rw [Nat.shiftRight_eq_div_pow, Nat.mul_add_div (by norm_num),
          Nat.div_eq_of_lt hnclt24, Nat.add_zero]
      have hword : (2 ^ 24 * (Nat.size m / 8 + k + 1) +
            m * 2 ^ (8 * k) * 2 ^ (8 * (3 - (Nat.size m / 8 + k + 1)))) &&& 0x007fffff
          = m * 2 ^ (8 * k) * 2 ^ (8 * (3 - (Nat.size m / 8 + k + 1))) := by
        rw [show (0x007fffff : Nat) = 2 ^ 23 - 1 by norm_num,
          Nat.and_pow_two_sub_one_eq_mod,
          show (2 : Nat) ^ 24 * (Nat.size m / 8 + k + 1)
            = 2 ^ 23 * (2 * (Nat.size m / 8 + k + 1)) by ring,
          Nat.mul_add_mod, Nat.mod_eq_of_lt hnclt]
      rw [hshift24, hword, if_pos hcase, Nat.shiftRight_eq_div_pow,
        Nat.mul_div_cancel _ (by positivity)]
    · rw [if_neg hcase]
      have hshiftv : (m * 2 ^ (8 * k)) >>> (8 * ((Nat.size m / 8 + k + 1) - 3))
          = m * 2 ^ (8 * (2 - Nat.size m / 8)) := by
        rw [Nat.shiftRight_eq_div_pow,
          show m * 2 ^ (8 * k) = m * 2 ^ (8 * (2 - Nat.size m / 8)) *
              2 ^ (8 * ((Nat.size m / 8 + k + 1) - 3)) by
            rw [mul_assoc, ← pow_add,
              show 8 * (2 - Nat.size m / 8) + 8 * ((Nat.size m / 8 + k + 1) - 3) = 8 * k by omega],
          Nat.mul_div_cancel _ (by positivity)]
      rw [hshiftv]
      have hmlt : m < 2 ^ Nat.size m := Nat.lt_size_self m
      have hm2lt : m * 2 ^ (8 * (2 - Nat.size m / 8)) < 2 ^ 23 := by
        calc m * 2 ^ (8 * (2 - Nat.size m / 8))
            < 2 ^ Nat.size m * 2 ^ (8 * (2 - Nat.size m / 8)) :=
              (Nat.mul_lt_mul_right (by positivity)).mpr hmlt
        _ = 2 ^ (Nat.size m + 8 * (2 - Nat.size m / 8)) := by rw [← pow_add]
        _ ≤ 2 ^ 23 := Nat.pow_le_pow_right (by norm_num) (by omega)
      have hm2lt24 : m * 2 ^ (8 * (2 - Nat.size m / 8)) < 2 ^ 24 :=
        lt_of_lt_of_le hm2lt (by norm_num)
      have hlow : m * 2 ^ (8 * (2 - Nat.size m / 8)) &&& 0xffffffffffffffff
          = m * 2 ^ (8 * (2 - Nat.size m / 8)) := by
        rw [show (0xffffffffffffffff : Nat) = 2 ^ 64 - 1 by norm_num,
          Nat.and_pow_two_sub_one_eq_mod,
          Nat.mod_eq_of_lt (lt_of_lt_of_le hm2lt (by norm_num))]
      rw [hlow]
      have hsign : m * 2 ^ (8 * (2 - Nat.size m / 8)) &&& 0x00800000 = 0 := by
        rw [show (0x00800000 : Nat) = 2 ^ 23 by norm_num, Nat.and_two_pow,
          Nat.testBit_lt_two_pow hm2lt]
        simp
      rw [if_neg (not_not_intro hsign), if_neg (not_not_intro hsign)]
      have hguard1 : m * 2 ^ (8 * (2 - Nat.size m / 8)) < 0x00800000 := by
        rw [show (0x00800000 : Nat) = 2 ^ 23 by norm_num]
        exact hm2lt
      have hguard2 : Nat.size m / 8 + k + 1 < 256 := by omega
      rw [if_pos ⟨hguard1, hguard2⟩]
      simp only [Option.map_some']
      have hor : m * 2 ^ (8 * (2 - Nat.size m / 8)) ||| ((Nat.size m / 8 + k + 1) <<< 24)
          = 2 ^ 24 * (Nat.size m / 8 + k + 1) + m * 2 ^ (8 * (2 - Nat.size m / 8)) := by
        rw [Nat.shiftLeft_eq, Nat.lor_comm, mul_comm (Nat.size m / 8 + k + 1) (2 ^ 24),
          ← Nat.mul_add_lt_is_or hm2lt24]
      rw [hor]
      simp only [ArithUint256.fromCompact]
      have hshift24 : (2 ^ 24 * (Nat.size m / 8 + k + 1) +
            m * 2 ^ (8 * (2 - Nat.size m / 8))) >>> 24 = Nat.size m / 8 + k + 1 := by
        rw [Nat.shiftRight_eq_div_pow, Nat.mul_add_div (by norm_num),
          Nat.div_eq_of_lt hm2lt24, Nat.add_zero]
      have hword : (2 ^ 24 * (Nat.size m / 8 + k + 1) +
            m * 2 ^ (8 * (2 - Nat.size m / 8))) &&& 0x007fffff
          = m * 2 ^ (8 * (2 - Nat.size m / 8)) := by
        rw [show (0x007fffff : Nat) = 2 ^ 23 - 1 by norm_num,
          Nat.and_pow_two_sub_one_eq_mod,
          show (2 : Nat) ^ 24 * (Nat.size m / 8 + k + 1)
            = 2 ^ 23 * (2 * (Nat.size m / 8 + k + 1)) by ring,
          Nat.mul_add_mod, Nat.mod_eq_of_lt hm2lt]
      rw [hshift24, hword, if_neg hcase, Nat.shiftLeft_eq, mul_assoc, ← pow_add,
        show 8 * (2 - Nat.size m / 8) + 8 * ((Nat.size m / 8 + k + 1) - 3) = 8 * k by omega]

/-- C3 (witness): the genesis target `0xffff * 256 ^ 28` round-trips. -/
theorem C3_roundtrip_exact_witness :
    (0xffff : Nat) < 0x800000 ∧ (0xffff : Nat) * 256 ^ 28 < 2 ^ 256 ∧
      (ArithUint256.GetCompact (0xffff * 256 ^ 28)).map ArithUint256.fromCompact =
        some (0xffff * 256 ^ 28) :=
  ⟨by decide, by decide, C3_roundtrip_exact 0xffff 28 (by decide) (by decide)⟩

/-! ### C2 -/

/-- C2: when a `connect` batch fails validation (linkage, bits range,
recomputed-difficulty mismatch, or proof of work), no byte is written: the
backing file, the observable `length()` and the published change events are
all exactly as before the call.  (Structurally, the whole batch is walked by
the validation loop before the write phase is ever reached.) -/
theorem C2_validation_failure_leaves_store_unchanged
    (H PW : List Nat → List Nat) (params : ChainParams) (chain : String)
    (st : HeadersState) (start : Nat) (headers : List Nat)
    (st2 : HeadersState) (e : PyErr)
    (h : _sync_connect H PW params chain st start headers = (st2, Except.error e))
    (he : e = PyErr.linkageAssert ∨ e = PyErr.bitsRangeAssert ∨
      e = PyErr.difficultyAssert ∨ e = PyErr.powAssert) :
    st2.file = st.file ∧ st2.events = st.events ∧ lengthVal st2 = lengthVal st := by
  simp only [_sync_connect] at h
  split at h
  · injection h with h1 h2
    rw [← h1]
    exact ⟨rfl, rfl, rfl⟩
  · split at h
    · rename_i st3 e3 heq
      injection h with h1 h2
      rw [← h1]
      have hp := verifyLoop_state_preserved H PW params chain
        (_iterate_headers start headers) st none
      rw [heq] at hp
      exact hp
    · rename_i st3 u heq
      split at h
      · injection h with h1 h2
        injection h2 with h3
        rcases he with he | he | he | he <;> exact absurd (h3.trans he) (by decide)
      · exact absurd (congrArg Prod.snd h) (by simp)

/-- C2 (witness): a batch whose first record has a bad `prev_block_hash`
fails with the linkage assertion and leaves the empty store untouched. -/
theorem C2_validation_failure_leaves_store_unchanged_witness :
    _sync_connect H0 H0 lbrycrd_main_params "lbrycrd_main" emptyState 0 badLinkRecord
        = (emptyState, Except.error PyErr.linkageAssert) ∧
      emptyState.file = emptyState.file ∧ emptyState.events = emptyState.events ∧
      lengthVal emptyState = lengthVal emptyState :=
  ⟨by decide,
    C2_validation_failure_leaves_store_unchanged H0 H0 lbrycrd_main_params
      "lbrycrd_main" emptyState 0 badLinkRecord emptyState PyErr.linkageAssert
      (by decide) (Or.inl rfl)⟩

/-! ### C4 -/

/-- C4 (counterexample): `connect(0, emptyBytes)` on a one-header store is not
a no-op: the file is truncated to 0 bytes, the length drops from 1 to 0, and
a `-1` change event is published. -/
theorem C4_counterexample :
    _sync_connect H0 H0 lbrycrd_main_params "lbrycrd_main"
        ⟨List.replicate 112 0, some 1, []⟩ 0 [] =
      (⟨[], some 0, [(-1 : Int)]⟩, Except.ok none) ∧
      ([] : List Nat) ≠ List.replicate 112 0 ∧ [(-1 : Int)] ≠ ([] : List Int) :=
  ⟨by decide, by decide, by decide⟩

/-- C4 (amended): `connect(n, emptyBytes)` always reaches the write phase and
resizes the backing file to exactly `n * 112` bytes (truncating when
`n < length()`, zero-extending when `n > length()`), sets the cached length
to `n`, and publishes the change `n - oldLength`; it is a no-op on the file
only when `n * 112` already equals the file size, and even then a `0` change
event is published. -/
theorem C4_connect_empty_resizes (H PW : List Nat → List Nat)
    (params : ChainParams) (chain : String) (st : HeadersState)
    (start old : Nat) (hsz : st.size = some old) :
    _sync_connect H PW params chain st start [] =
      ({ file := st.file.take (start * HEADER_SIZE) ++
            List.replicate (start * HEADER_SIZE - st.file.length) 0,
         size := some start,
         events := st.events ++ [((start : Int) - (old : Int))] }, Except.ok none) := by
  have hlen : (st.file.take (start * HEADER_SIZE) ++
      List.replicate (start * HEADER_SIZE - st.file.length) 0).length
      = start * HEADER_SIZE := by
    simp [List.length_take]
    omega
  have hdiv : start * HEADER_SIZE / HEADER_SIZE = start := by
    simp only [HEADER_SIZE]
    omega
  simp only [_sync_connect]
  rw [if_neg (by simp)]
  have hiter : _iterate_headers start [] = [] := by
    simp [_iterate_headers]
  rw [hiter]
  simp only [verifyLoop, hsz, List.append_nil, hlen, hdiv]

/-- C4 (witness): a two-header store resized to one header by
`connect(1, emptyBytes)`. -/
theorem C4_connect_empty_resizes_witness :
    (⟨List.replicate 224 7, some 2, []⟩ : HeadersState).size = some 2 ∧
      _sync_connect H0 H0 lbrycrd_main_params "lbrycrd_main"
          ⟨List.replicate 224 7, some 2, []⟩ 1 [] =
        ({ file := (List.replicate 224 7 : List Nat).take (1 * HEADER_SIZE) ++
              List.replicate (1 * HEADER_SIZE - (List.replicate 224 7 : List Nat).length) 0,
           size := some 1,
           events := ([] : List Int) ++ [((1 : Int) - ((2 : Nat) : Int))] }, Except.ok none) :=
  ⟨rfl, C4_connect_empty_resizes H0 H0 lbrycrd_main_params "lbrycrd_main"
    ⟨List.replicate 224 7, some 2, []⟩ 1 2 rfl⟩

/-! ### C5 -/

/-- C5 (counterexample): a successful `connect` that adds one header publishes
the integer 1 to the change stream but the call itself produces `None`
(`_sync_connect` has no `return` statement), not that integer. -/
theorem C5_counterexample :
    _sync_connect H0 H0 lbrycrd_main_params "lbrycrd_main" emptyState 0 genesisRecord
        = (⟨genesisRecord, some 1, [(1 : Int)]⟩, Except.ok none) ∧
      (Except.ok (none : Option Int) : Except PyErr (Option Int)) ≠
        Except.ok (some (1 : Int)) :=
  ⟨by decide, by decide⟩

/-- C5 (amended): every successful `connect` publishes exactly
`newLength - oldLength` to the change stream, but returns `None` rather than
that integer (the count is only observable through the stream). -/
theorem C5_connect_publishes_change_returns_none
    (H PW : List Nat → List Nat) (params : ChainParams) (chain : String)
    (st : HeadersState) (start : Nat) (headers : List Nat)
    (st2 : HeadersState) (v : Option Int) (old : Nat)
    (hsz : st.size = some old)
    (h : _sync_connect H PW params chain st start headers = (st2, Except.ok v)) :
    v = none ∧ st2.size = some (sync_read_length st2) ∧
      st2.events = st.events ++ [((sync_read_length st2 : Int) - (old : Int))] := by
  simp only [_sync_connect] at h
  split at h
  · exact absurd (congrArg Prod.snd h) (by simp)
  · split at h
    · exact absurd (congrArg Prod.snd h) (by simp)
    · rename_i st3 u heq
      have hst3 : st3 = st := by
        have hp := verifyLoop_state_of_some H PW params chain
          (_iterate_headers start headers) st none hsz
        rw [heq] at hp
        exact hp
      subst hst3
      split at h
      · rename_i hnone
        rw [hsz] at hnone
        exact absurd hnone (by simp)
      · rename_i old2 hsome
        have hold : old2 = old := by
          rw [hsz] at hsome
          injection hsome with h4
          exact h4.symm
        subst hold
        injection h with h1 h2
        injection h2 with h3
        rw [← h1, ← h3]
        exact ⟨rfl, rfl, rfl⟩

/-- C5 (witness): the genesis batch on an empty store — one header added,
`1` published, `None` returned. -/
theorem C5_connect_publishes_change_returns_none_witness :
    emptyState.size = some 0 ∧
      _sync_connect H0 H0 lbrycrd_main_params "lbrycrd_main" emptyState 0 genesisRecord
        = (⟨genesisRecord, some 1, [(1 : Int)]⟩, Except.ok none) ∧
      ((none : Option Int) = none ∧
        (⟨genesisRecord, some 1, [(1 : Int)]⟩ : HeadersState).size =
          some (sync_read_length ⟨genesisRecord, some 1, [(1 : Int)]⟩) ∧
        (⟨genesisRecord, some 1, [(1 : Int)]⟩ : HeadersState).events =
          emptyState.events ++
            [((sync_read_length ⟨genesisRecord, some 1, [(1 : Int)]⟩ : Int) - ((0 : Nat) : Int))]) :=
  ⟨rfl, by decide,
    C5_connect_publishes_change_returns_none H0 H0 lbrycrd_main_params "lbrycrd_main"
      emptyState 0 genesisRecord ⟨genesisRecord, some 1, [(1 : Int)]⟩ none 0 rfl (by decide)⟩

/-! ### C8 -/

/-- C8: after every successful `connect(start, rawBytes)`, the cached and
observable length equal `start + len(rawBytes)/112` and the backing file
holds exactly `length() * 112` bytes (the file was truncated at
`start*112 + len(rawBytes)`). -/
theorem C8_length_after_successful_connect
    (H PW : List Nat → List Nat) (params : ChainParams) (chain : String)
    (st : HeadersState) (start : Nat) (headers : List Nat)
    (st2 : HeadersState) (v : Option Int)
    (h : _sync_connect H PW params chain st start headers = (st2, Except.ok v)) :
    st2.size = some (start + headers.length / HEADER_SIZE) ∧
      st2.file.length = (start + headers.length / HEADER_SIZE) * HEADER_SIZE ∧
      lengthVal st2 = start + headers.length / HEADER_SIZE := by
  simp only [_sync_connect] at h
  split at h
  · exact absurd (congrArg Prod.snd h) (by simp)
  · rename_i hfmt
    split at h
    · exact absurd (congrArg Prod.snd h) (by simp)
    · rename_i st3 u heq
      split at h
      · exact absurd (congrArg Prod.snd h) (by simp)
      · rename_i old hsome
        injection h with h1 h2
        have hlen2 : (st3.file.take (start * HEADER_SIZE) ++
            List.replicate (start * HEADER_SIZE - st3.file.length) 0 ++ headers).length
            = start * HEADER_SIZE + headers.length := by
          simp [List.length_take]
          omega
        have hdiv : (start * HEADER_SIZE + headers.length) / HEADER_SIZE
            = start + headers.length / HEADER_SIZE := by
          simp only [HEADER_SIZE] at hfmt ⊢
          omega
        rw [← h1]
        refine ⟨?_, ?_, ?_⟩
        · show some _ = _
          rw [hlen2, hdiv]
        · show (st3.file.take (start * HEADER_SIZE) ++
            List.replicate (start * HEADER_SIZE - st3.file.length) 0 ++ headers).length = _
          rw [hlen2]
          simp only [HEADER_SIZE] at hfmt ⊢
          omega
        · show lengthVal ⟨_, some _, _⟩ = _
          simp only [lengthVal, __len__]
          rw [hlen2, hdiv]

/-- C8 (witness): the genesis batch — length 1, file size 112. -/
theorem C8_length_after_successful_connect_witness :
    _sync_connect H0 H0 lbrycrd_main_params "lbrycrd_main" emptyState 0 genesisRecord
        = (⟨genesisRecord, some 1, [(1 : Int)]⟩, Except.ok none) ∧
      ((⟨genesisRecord, some 1, [(1 : Int)]⟩ : HeadersState).size =
          some (0 + genesisRecord.length / HEADER_SIZE) ∧
        (⟨genesisRecord, some 1, [(1 : Int)]⟩ : HeadersState).file.length =
          (0 + genesisRecord.length / HEADER_SIZE) * HEADER_SIZE ∧
        lengthVal ⟨genesisRecord, some 1, [(1 : Int)]⟩ =
          0 + genesisRecord.length / HEADER_SIZE) :=
  ⟨by decide,
    C8_length_after_successful_connect H0 H0 lbrycrd_main_params "lbrycrd_main"
      emptyState 0 genesisRecord ⟨genesisRecord, some 1, [(1 : Int)]⟩ none (by decide)⟩

/-! ### C6 -/

/-- C6 (counterexample): on an empty store (`length() = 0`), reading header 0 —
a height outside `[0, length())` — makes `__getitem__` raise a `TypeError`
(deserializing the `None` from `sync_read_header`) instead of returning an
absence signal, so `readHeader` does fail in another way. -/
theorem C6_counterexample :
    lengthVal emptyState = 0 ∧
      (__getitem__ emptyState 0).2 = Except.error PyErr.typeErrorNone := by
  decide

/-- C6 (amended): for every height outside `[0, length())`,
`sync_read_header` returns the absence signal `none`, while `__getitem__`
raises a `TypeError` (it unconditionally deserializes, and deserializing the
absent marker fails) rather than returning an absent result. -/
theorem C6_out_of_range_reads (st : HeadersState) (height : Int)
    (h : height < 0 ∨ (lengthVal st : Int) ≤ height) :
    (sync_read_header st height).2 = none ∧
      (__getitem__ st height).2 = Except.error PyErr.typeErrorNone := by
  have hraw : (sync_read_header st height).2 = none := by
    simp only [sync_read_header]
    split
    · rename_i h0
      have hlen : (__len__ st).2 = lengthVal st := rfl
      rw [if_neg (show ¬ height < ((__len__ st).2 : Int) by rw [hlen]; omega)]
    · rfl
  exact ⟨hraw, by simp [__getitem__, hraw]⟩

/-- C6 (witness): a concrete store with cached length 7 and height 9. -/
theorem C6_out_of_range_reads_witness :
    ((9 : Int) < 0 ∨ ((lengthVal ⟨[1, 2], some 7, [3]⟩ : Int) ≤ 9)) ∧
      (sync_read_header ⟨[1, 2], some 7, [3]⟩ 9).2 = none ∧
      (__getitem__ ⟨[1, 2], some 7, [3]⟩ 9).2 = Except.error PyErr.typeErrorNone :=
  ⟨Or.inr (by decide),
    C6_out_of_range_reads ⟨[1, 2], some 7, [3]⟩ 9 (Or.inr (by decide))⟩

/-! ### C7 -/

/-- C7: for every 32-bit compact value, `fromCompact` takes the low 23 bits as
mantissa and the top 8 bits as exponent, right-shifting the mantissa by
`8*(3 - exponent)` when the exponent is at most 3 and left-shifting it by
`8*(exponent - 3)` otherwise. -/
theorem C7_fromCompact_formula (n : Nat) (h : n < 2 ^ 32) :
    ArithUint256.fromCompact n =
      if n / 2 ^ 24 ≤ 3 then (n % 2 ^ 23) / 2 ^ (8 * (3 - n / 2 ^ 24))
      else (n % 2 ^ 23) * 2 ^ (8 * (n / 2 ^ 24 - 3)) := by
  simp only [ArithUint256.fromCompact]
  rw [show (0x007fffff : Nat) = 2 ^ 23 - 1 by norm_num]
  simp only [Nat.and_pow_two_sub_one_eq_mod, Nat.shiftRight_eq_div_pow, Nat.shiftLeft_eq]

/-- C7 (witness): the genesis bits `0x1f00ffff` decode to `0xffff * 2 ^ 224`. -/
theorem C7_fromCompact_formula_witness :
    (0x1f00ffff : Nat) < 2 ^ 32 ∧
      ArithUint256.fromCompact 0x1f00ffff =
        (if (0x1f00ffff : Nat) / 2 ^ 24 ≤ 3 then
          ((0x1f00ffff : Nat) % 2 ^ 23) / 2 ^ (8 * (3 - (0x1f00ffff : Nat) / 2 ^ 24))
        else ((0x1f00ffff : Nat) % 2 ^ 23) * 2 ^ (8 * ((0x1f00ffff : Nat) / 2 ^ 24 - 3))) :=
  ⟨by decide, C7_fromCompact_formula 0x1f00ffff (by decide)⟩

/-! ### C9 -/

/-- C9: in the non-genesis retarget computation, on any chain other than
`lbrycrd_regtest` the computation fails with the bits-range assertion exactly
when the exponent byte of the `last` argument's bits lies outside `[3, 31]`
or its mantissa lies outside `[0x8000, 0x7fffff]`; on `lbrycrd_regtest` those
assertions are skipped entirely, so no bits value can fail them. -/
theorem C9_bits_range_asserts (params : ChainParams) (chain : String)
    (height : Int) (first : Option Header) (last : Header) (hh : height ≠ 0) :
    (chain = "lbrycrd_regtest" →
      _calculate_lbry_next_work_required params chain height first last ≠
        Except.error PyErr.bitsRangeAssert) ∧
    (chain ≠ "lbrycrd_regtest" →
      (_calculate_lbry_next_work_required params chain height first last =
          Except.error PyErr.bitsRangeAssert ↔
        ¬ (0x03 ≤ (last.bits >>> 24) &&& 0xff ∧ (last.bits >>> 24) &&& 0xff ≤ 0x1f ∧
            0x8000 ≤ last.bits &&& 0xffffff ∧ last.bits &&& 0xffffff ≤ 0x7fffff))) := by
  simp only [_calculate_lbry_next_work_required]
  rw [if_neg hh]
  constructor
  · intro hch
    subst hch
    rw [if_neg (show ¬ ("lbrycrd_regtest" : String) ≠ "lbrycrd_regtest" by simp)]
    cases first with
    | none => simp
    | some f =>
      simp only []
      split <;> simp
  · intro hch
    rw [if_pos hch]
    by_cases h1 : 0x03 ≤ (last.bits >>> 24) &&& 0xff ∧ (last.bits >>> 24) &&& 0xff ≤ 0x1f
    · rw [if_neg (not_not_intro h1)]
      by_cases h2 : 0x8000 ≤ last.bits &&& 0xffffff ∧ last.bits &&& 0xffffff ≤ 0x7fffff
      · rw [if_neg (not_not_intro h2)]
        cases first with
        | none =>
          simp only []
          constructor
          · intro hfalse
            exact absurd hfalse (by simp)
          · intro hr
            exact absurd ⟨h1.1, h1.2, h2.1, h2.2⟩ hr
        | some f =>
          simp only []
          constructor
          · intro hfalse
            revert hfalse
            split <;> simp
          · intro hr
            exact absurd ⟨h1.1, h1.2, h2.1, h2.2⟩ hr
      · rw [if_pos h2]
        cases first <;>
          · simp only []
            constructor
            · intro _
              tauto
            · intro _
              trivial
    · rw [if_pos h1]
      cases first <;>
        · simp only []
          constructor
          · intro _
            tauto
          · intro _
            trivial

/-- C9 (witness): on `lbrycrd_main`, bits `0` (exponent byte 0) fail the
range assertion. -/
theorem C9_bits_range_asserts_witness :
    (1 : Int) ≠ 0 ∧ ("lbrycrd_main" : String) ≠ "lbrycrd_regtest" ∧
      _calculate_lbry_next_work_required lbrycrd_main_params "lbrycrd_main" 1
          none firstRetarget = Except.error PyErr.bitsRangeAssert :=
  ⟨by decide, by decide,
    ((C9_bits_range_asserts lbrycrd_main_params "lbrycrd_main" 1 none firstRetarget
        (by decide)).2 (by decide)).mpr (by decide)⟩

/-! ### C10 -/

/-- C10: `_ArithUint256` multiplication reduces the product modulo `2 ^ 256`
(silent wrap-around, neither checked nor saturating), while in-place floor
division takes the exact floor quotient with no modulus; concretely,
`2 ^ 255 * 3` wraps to `2 ^ 255` under multiplication, whereas dividing
`2 ^ 255 * 3` by `3` recovers `2 ^ 255` exactly. -/
theorem C10_mul_wraps_floordiv_exact :
    (∀ value x : Int, ArithUint256.__mul__ value x = (value * x) % 2 ^ 256 ∧
        ArithUint256.__ifloordiv__ value x = Int.fdiv value x) ∧
      ArithUint256.__mul__ (2 ^ 255) 3 = 2 ^ 255 ∧
      ArithUint256.__mul__ (2 ^ 255) 3 ≠ 2 ^ 255 * 3 ∧
      ArithUint256.__ifloordiv__ (2 ^ 255 * 3) 3 = 2 ^ 255 :=
  ⟨fun _ _ => ⟨rfl, rfl⟩, by decide, by decide, by decide⟩

end Blockchain
